import Mathlib

/-!
Verification of the Salesforce pipeline automation repository.

This file gives a shallow embedding, in Lean 4, of the algorithmic core of the
repository:

* the row transformation of `process_and_merge_files` (src/app.py): projection
  of the fixed raw-column indices, numeric coercion of the two currency
  columns, null-based row dropping, boilerplate exclusion, Total-row handling,
  stray-count folding, partition/sort/concatenation, template clearing and
  cell writing;
* the template analyzer (src/template_analyzer.py): calendar-column
  classification (`identify_input_vs_calendar_columns`), raw header location
  (`analyze_raw_data_sample`) and the per-slot scoring of
  `smart_column_mapping`.

Strings are modelled as `List Char` (`Str`), matching Python strings of the
source; cell values after the pandas coercion step are modelled by `Cell`
(string / integer / parsed date / null, where null stands for pandas NaN or an
openpyxl empty cell).  Modelling notes: `pd.to_numeric` and `float` are
modelled on optionally-signed integer digit strings (the repository's currency
columns after stripping the dollar signs and commas), `pd.to_datetime` on
slash-separated digit triples, and the case-insensitive `str.contains` of the
boilerplate filter as literal substring search.  No claim below depends on the
behaviour of those library calls outside these fragments.
-/

set_option maxRecDepth 10000

/-- Python strings are modelled as lists of characters. -/
abbrev Str := List Char

/-- Python str.lower, per character (the source only lowercases ASCII headers
and keywords). -/
def lowerS (s : Str) : Str := s.map Char.toLower

/-- Python str.strip: remove leading and trailing whitespace. -/
def trimS (s : Str) : Str :=
  ((s.dropWhile Char.isWhitespace).reverse.dropWhile Char.isWhitespace).reverse

/-- Python substring test (the `in` operator): pat occurs contiguously in s.
Scans every suffix of s for pat as a prefix. -/
def containsSub : Str → Str → Bool
  | [], pat => pat.isPrefixOf []
  | s@(_ :: rest), pat => pat.isPrefixOf s || containsSub rest pat

/-- Python str.isdigit: nonempty and all characters are digits. -/
def isDigitsB (s : Str) : Bool := !s.isEmpty && s.all Char.isDigit

/-- Numeric value of a digit string (used for Python int(...)). -/
def natOfDigits (s : Str) : Nat := s.foldl (fun n c => 10 * n + (c.toNat - 48)) 0

/-- Python int(...) / float(...) on an optionally-signed integer digit string;
returns none where Python would raise (or where pd.to_numeric would produce
NaN under errors=coerce). -/
def parseNumS (s : Str) : Option Int :=
  match s with
  | '-' :: rest => if isDigitsB rest then some (-(natOfDigits rest : Int)) else none
  | _ => if isDigitsB s then some ((natOfDigits s : Int)) else none

/-- Helper for Python str.split() (whitespace tokenisation): cur holds the
current token reversed. -/
def splitWsAux : Str → Str → List Str
  | [], cur => if cur.isEmpty then [] else [cur.reverse]
  | c :: cs, cur =>
    if c.isWhitespace then
      if cur.isEmpty then splitWsAux cs [] else cur.reverse :: splitWsAux cs []
    else splitWsAux cs (c :: cur)

/-- Python str.split() with no argument: split on whitespace runs, dropping
empty tokens. -/
def splitWs (s : Str) : List Str := splitWsAux s []

/-- Helper for splitting on a single character, keeping empty pieces
(Python str.split(sep)). -/
def splitChAux (sep : Char) : Str → Str → List Str
  | [], cur => [cur.reverse]
  | c :: cs, cur => if c = sep then cur.reverse :: splitChAux sep cs [] else splitChAux sep cs (c :: cur)

/-- Python str.split(sep) for a one-character separator. -/
def splitCh (sep : Char) (s : Str) : List Str := splitChAux sep s []

/-- Lexicographic comparison of strings by code point, as Python compares
strings (and as pandas sorts an object column of strings). -/
def strLe : Str → Str → Bool
  | [], _ => true
  | _ :: _, [] => false
  | a :: as, b :: bs => if a < b then true else if b < a then false else strLe as bs

/-- Stable insertion into a sorted list (helper for the sort model). -/
def insertLe (le : α → α → Bool) (x : α) : List α → List α
  | [] => [x]
  | y :: ys => if le x y then x :: y :: ys else y :: insertLe le x ys

/-- Stable insertion sort; models the deterministic ascending sort that
sort_values performs on the manager column. -/
def sortLe (le : α → α → Bool) : List α → List α
  | [] => []
  | x :: xs => insertLe le x (sortLe le xs)

theorem mem_insertLe (le : α → α → Bool) (x : α) (l : List α) (a : α) :
    a ∈ insertLe le x l ↔ a = x ∨ a ∈ l := by
  induction l with
  | nil => simp [insertLe]
  | cons y ys ih =>
    cases hxy : le x y with
    | true => simp [insertLe, hxy]
    | false =>
      simp only [insertLe, hxy, Bool.false_eq_true, if_false, List.mem_cons, ih]
      tauto

theorem mem_sortLe (le : α → α → Bool) (l : List α) (a : α) :
    a ∈ sortLe le l ↔ a ∈ l := by
  induction l with
  | nil => simp [sortLe]
  | cons x xs ih => simp [sortLe, mem_insertLe, ih]

theorem pairwise_insertLe (le : α → α → Bool)
    (htot : ∀ a b, le a b = true ∨ le b a = true)
    (htr : ∀ a b c, le a b = true → le b c = true → le a c = true)
    (x : α) (l : List α) (hl : l.Pairwise (fun a b => le a b = true)) :
    (insertLe le x l).Pairwise (fun a b => le a b = true) := by
  induction l with
  | nil => simp [insertLe]
  | cons y ys ih =>
    rcases List.pairwise_cons.mp hl with ⟨hy, hys⟩
    cases hxy : le x y with
    | true =>
      rw [show insertLe le x (y :: ys) = x :: y :: ys by simp [insertLe, hxy]]
      refine List.pairwise_cons.mpr ⟨?_, hl⟩
      intro b hb
      rcases List.mem_cons.mp hb with hb | hb
      · subst hb
        exact hxy
      · exact htr _ _ _ hxy (hy b hb)
    | false =>
      rw [show insertLe le x (y :: ys) = y :: insertLe le x ys by simp [insertLe, hxy]]
      refine List.pairwise_cons.mpr ⟨?_, ih hys⟩
      intro b hb
      rcases (mem_insertLe le x ys b).mp hb with hb | hb
      · rw [hb]
        rcases htot x y with h1 | h1
        · rw [h1] at hxy
          cases hxy
        · exact h1
      · exact hy b hb

theorem pairwise_sortLe (le : α → α → Bool)
    (htot : ∀ a b, le a b = true ∨ le b a = true)
    (htr : ∀ a b c, le a b = true → le b c = true → le a c = true)
    (l : List α) : (sortLe le l).Pairwise (fun a b => le a b = true) := by
  induction l with
  | nil => simp [sortLe]
  | cons x xs ih => exact pairwise_insertLe le htot htr x (sortLe le xs) ih

theorem strLe_total (a b : Str) : strLe a b = true ∨ strLe b a = true := by
  induction a generalizing b with
  | nil => left; rfl
  | cons x xs ih =>
    cases b with
    | nil => right; rfl
    | cons y ys =>
      by_cases h1 : x < y
      · left; simp [strLe, h1]
      · by_cases h2 : y < x
        · right
          simp [strLe, h2, asymm h2]
        · have hxy : ¬ x < y := h1
          rcases ih ys with h | h
          · left; simp [strLe, h1, h2, h]
          · right; simp [strLe, h1, h2, h]

theorem strLe_trans (a b c : Str) (h1 : strLe a b = true) (h2 : strLe b c = true) :
    strLe a c = true := by
  induction a generalizing b c with
  | nil => rfl
  | cons x xs ih =>
    cases b with
    | nil => simp [strLe] at h1
    | cons y ys =>
      cases c with
      | nil => simp [strLe] at h2
      | cons z zs =>
        simp only [strLe] at h1 h2 ⊢
        by_cases hxy : x < y
        · by_cases hyz : y < z
          · simp [lt_trans hxy hyz]
          · by_cases hzy : z < y
            · simp only [hyz, if_neg, hzy, if_pos] at h2
              cases h2
            · have : y = z := le_antisymm (not_lt.mp hzy) (not_lt.mp hyz)
              subst this
              simp [hxy]
        · by_cases hyx : y < x
          · simp only [hxy, if_neg, hyx, if_pos] at h1
            cases h1
          · have : x = y := le_antisymm (not_lt.mp hyx) (not_lt.mp hxy)
            subst this
            simp only [hxy, if_neg, hyx, if_neg] at h1
            by_cases hyz : x < z
            · simp [hyz]
            · by_cases hzy : z < x
              · simp only [hyz, if_neg, hzy, if_pos] at h2
                cases h2
              · have : x = z := le_antisymm (not_lt.mp hzy) (not_lt.mp hyz)
                subst this
                simp only [hyz, if_neg, hzy, if_neg] at h1 h2 ⊢
                exact ih ys zs h1 h2

theorem substring_containsSub {pat s : Str} (h : pat <:+: s) : containsSub s pat = true := by
  induction s with
  | nil =>
    rcases h with ⟨t, u, htu⟩
    have h1 : t ++ pat = [] := (List.append_eq_nil.mp htu).1
    have h2 : pat = [] := (List.append_eq_nil.mp h1).2
    subst h2
    rfl
  | cons c rest ih =>
    rcases List.infix_cons_iff.mp h with h1 | h1
    · have h2 : pat.isPrefixOf (c :: rest) = true := List.isPrefixOf_iff_prefix.mpr h1
      simp [containsSub, h2]
    · simp [containsSub, ih h1]

theorem containsSub_substring {pat s : Str} (h : containsSub s pat = true) : pat <:+: s := by
  induction s with
  | nil =>
    have : pat.isPrefixOf ([] : Str) = true := h
    exact (List.isPrefixOf_iff_prefix.mp this).isInfix
  | cons c rest ih =>
    rcases Bool.or_eq_true _ _ |>.mp h with h1 | h1
    · exact (List.isPrefixOf_iff_prefix.mp h1).isInfix
    · exact List.infix_cons (ih h1)

theorem containsSub_iff_substring {pat s : Str} : containsSub s pat = true ↔ pat <:+: s :=
  ⟨containsSub_substring, substring_containsSub⟩

theorem splitWsAux_token_sub (s : Str) :
    ∀ cur t, t ∈ splitWsAux s cur → t <:+: cur.reverse ++ s := by
  induction s with
  | nil =>
    intro cur t ht
    by_cases hc : cur.isEmpty
    · simp [splitWsAux, hc] at ht
    · simp only [splitWsAux, hc, if_neg, Bool.not_eq_true, List.mem_singleton] at ht
      subst ht
      exact ⟨[], [], by simp⟩
  | cons c cs ih =>
    intro cur t ht
    by_cases hw : c.isWhitespace
    · by_cases hc : cur.isEmpty
      · have hc0 : cur = [] := List.isEmpty_iff.mp hc
        subst hc0
        simp only [splitWsAux, hw, if_pos, List.isEmpty_nil] at ht
        have h2 := ih [] t ht
        simp only [List.reverse_nil, List.nil_append] at h2
        exact h2.trans ⟨[c], [], by simp⟩
      · simp only [splitWsAux, hw, if_pos, hc, if_neg, Bool.not_eq_true, List.mem_cons] at ht
        rcases ht with ht | ht
        · subst ht
          exact ⟨[], c :: cs, by simp⟩
        · have h2 := ih [] t ht
          simp only [List.reverse_nil, List.nil_append] at h2
          refine h2.trans ?_
          exact ⟨cur.reverse ++ [c], [], by simp⟩
    · simp only [splitWsAux, hw, if_neg, Bool.not_eq_true] at ht
      have h2 := ih (c :: cur) t ht
      simpa using h2

theorem splitWs_token_sub {s t : Str} (h : t ∈ splitWs s) : t <:+: s := by
  have h2 := splitWsAux_token_sub s [] t h
  simpa using h2

theorem splitWs_token_containsSub {s t : Str} (h : t ∈ splitWs s) :
    containsSub s t = true :=
  substring_containsSub (splitWs_token_sub h)

/-! ## Cell values

After the pandas processing step of process_and_merge_files a cell holds
either a string, a coerced number, a parsed calendar date, or null (pandas
NaN / an empty openpyxl cell). -/

inductive Cell where
  | str : Str → Cell
  | num : Int → Cell
  | date : Nat → Nat → Nat → Cell
  | null : Cell
deriving DecidableEq

/-- A processed row: the list of cell values of one DataFrame row, in the
projected column order (Capture Manager, Opportunity Name, SF Number, T&E,
Stage, Positioning, Ceiling Value, MAG Value, Anticipated RFP Date,
RFP Award, GovWin). -/
abbrev Row := List Cell

/-- Python str(...) as pandas astype(str) applies it to a cell: strings are
unchanged, NaN renders as the literal string nan, numbers render as their
digit string (the repository only applies this to the two all-string leading
columns). -/
def pyStr : Cell → Str
  | Cell.str s => s
  | Cell.num n => if n < 0 then '-' :: Nat.toDigits 10 n.natAbs else Nat.toDigits 10 n.natAbs
  | Cell.date m d y => Nat.toDigits 10 m ++ '/' :: Nat.toDigits 10 d ++ '/' :: Nat.toDigits 10 y
  | Cell.null => "nan".data

/-- The temporary temp_mgr_lower key of app.py: first column as a string,
stripped and lower-cased. -/
def mgrKey (r : Row) : Str := lowerS (trimS (pyStr (r.getD 0 Cell.null)))

/-- Total-row test of app.py line 171: the normalised first field equals
exactly the literal total. -/
def isTotalRow (r : Row) : Bool := mgrKey r = ("total".data)

/-- The has-manager mask of app.py line 187: normalised first field is
non-empty and not the literal nan. -/
def hasMgr (r : Row) : Bool := mgrKey r ≠ ([] : Str) && mgrKey r ≠ ("nan".data)

/-- Second (opportunity) field of a row. -/
def field1 (r : Row) : Cell := r.getD 1 Cell.null

/-- Stray-count test of app.py line 177: the second field, as a string,
matches the anchored regex of digits only. -/
def isStray (r : Row) : Bool := isDigitsB (pyStr (field1 r))

/-- The two boilerplate exclusion keywords of app.py lines 157-160. -/
def exclusionKeywords : List Str :=
  [("Confidential Information - Do Not Distribute".data),
   ("Copyright © 2000-2025 salesforce.com, inc. All rights reserved.".data)]

/-- Case-insensitive boilerplate test on one cell (str.contains with
case=False; the regex alternation of the source is modelled as literal
substring search per keyword). -/
def cellExcluded (c : Cell) : Bool :=
  exclusionKeywords.any (fun kw => containsSub (lowerS (pyStr c)) (lowerS kw))

/-- Null test used by dropna: only genuine NaN counts, an empty string does
not. -/
def isNullCell : Cell → Bool
  | Cell.null => true
  | _ => false

/-- Rows remaining after the dropping and exclusion steps of app.py lines
153-162, in order: dropna(how=all), dropna on the second column, then the
exclusion filter on the first column followed by the second column. -/
def filteredRows (rows : List Row) : List Row :=
  (((rows.filter (fun r => !r.all isNullCell)).filter
      (fun r => !isNullCell (field1 r))).filter
      (fun r => !cellExcluded (r.getD 0 Cell.null))).filter
      (fun r => !cellExcluded (field1 r))

/-- The isolated Total rows of app.py line 172. -/
def totalRows (rows : List Row) : List Row := (filteredRows rows).filter isTotalRow

/-- The main (non-Total) rows of app.py line 173. -/
def mainRows (rows : List Row) : List Row := (filteredRows rows).filter (fun r => !isTotalRow r)

/-- Stray total-count folding of app.py lines 176-182: when a Total row
exists and some main row has an all-digit second field, the first such
value is written into the first Total row's second field and every matching
main row is removed. -/
def foldStray (ts ms : List Row) : List Row × List Row :=
  match ts with
  | [] => (ts, ms)
  | t :: rest =>
    match ms.find? isStray with
    | none => (t :: rest, ms)
    | some s => (t.set 1 (field1 s) :: rest, ms.filter (fun r => !isStray r))

/-- Sort key of app.py line 191: the original (unnormalised) first column. -/
def sortKeyR (r : Row) : Str := pyStr (r.getD 0 Cell.null)

/-- Row comparison used for the ascending manager sort. -/
def rowLe (a b : Row) : Bool := strLe (sortKeyR a) (sortKeyR b)

/-- The complete row transformation of app.py lines 153-193: filter, split
off the Total rows, fold stray counts, partition by manager presence, sort
the managed rows ascending and concatenate managed, unmanaged, Total. -/
def transformRows (rows : List Row) : List Row :=
  let p := foldStray (totalRows rows) (mainRows rows)
  sortLe rowLe (p.2.filter hasMgr) ++ p.2.filter (fun r => !hasMgr r) ++ p.1

/-- The fixed raw-column labels selected by app.py line 108. -/
def expectedColumns : List Nat := [1, 3, 4, 5, 6, 7, 8, 9, 10, 11, 12]

/-- Number of columns of the raw grid as pandas infers it (maximum row
length). -/
def gridWidth (g : List (List Str)) : Nat := g.foldr (fun r m => max r.length m) 0

/-- Column projection of app.py line 116: selecting the retained labels of
the frame whose first column was dropped is selecting the same positions of
the original row. -/
def projectRow (r : List Str) : List Str := expectedColumns.map (fun i => r.getD i [])

/-- Python str.replace removing every dollar sign and comma (app.py lines
150-151). -/
def stripMoney (s : Str) : Str := s.filter (fun c => !(c = '$' || c = ','))

/-- pd.to_numeric with errors=coerce on a currency cell: parse failures
become NaN. -/
def coerceMoney (s : Str) : Cell :=
  match parseNumS (stripMoney s) with
  | some n => Cell.num n
  | none => Cell.null

/-- Cell coercion over one projected row: positions 6 and 7 (the two
currency columns) go through to_numeric, everything else stays a string. -/
def coerceAux : Nat → List Str → Row
  | _, [] => []
  | i, s :: rest =>
    (if i = 6 || i = 7 then coerceMoney s else Cell.str s) :: coerceAux (i + 1) rest

/-- Coercion of app.py lines 150-151 applied to a projected row. -/
def coerceRow (r : List Str) : Row := coerceAux 0 r

/-- The full row stage of process_and_merge_files: drop the first 14 sheet
rows, project the fixed raw columns, coerce the currency columns, then run
the row transformation. -/
def rowStage (grid : List (List Str)) : List Row :=
  transformRows (((grid.drop 14).map projectRow).map coerceRow)

/-! ## Template sheet model and the write stage of process_and_merge_files -/

/-- An openpyxl worksheet, as a total map from (row, column) positions
(1-indexed) to cell values; an empty cell is Cell.null. -/
abbrev Sheet := Nat → Nat → Cell

/-- Config.DATA_START_ROW of src/config.py. -/
def dataStartRow : Nat := 5

/-- Test of app.py line 220: the first-column cell is a string containing
the substring total, case-insensitively. -/
def totalBoundaryCell : Cell → Bool
  | Cell.str s => containsSub (lowerS s) ("total".data)
  | _ => false

/-- Clear boundary of app.py lines 217-222: the row before the first row at
or after the start row whose first-column cell mentions total; the last
sheet row when no such row exists. -/
def findEndRow (sheet : Sheet) (maxRow : Nat) : Nat :=
  match (List.range' dataStartRow (maxRow + 1 - dataStartRow)).find?
      (fun r => totalBoundaryCell (sheet r 1)) with
  | some r => r - 1
  | none => maxRow

/-- Clearing loop of app.py lines 225-227: every cell with row in
[dataStartRow, endRow] and column in [2, 46] becomes None. -/
def clearRegion (sheet : Sheet) (endRow : Nat) : Sheet :=
  fun r c =>
    if dataStartRow ≤ r && r ≤ endRow && 2 ≤ c && c ≤ 46 then Cell.null else sheet r c

/-- Python float(...) applied to an already-coerced cell value at write time
(app.py lines 242 and 248). -/
def tryFloat : Cell → Option Int
  | Cell.num n => some n
  | Cell.str s => parseNumS s
  | _ => none

/-- parse_date of app.py lines 58-63: pd.to_datetime on a slash-separated
digit triple, returning the original value on failure. -/
def parseDateCell : Cell → Cell
  | Cell.str s =>
    match splitCh '/' s with
    | [a, b, c] =>
      if isDigitsB a && isDigitsB b && isDigitsB c then
        Cell.date (natOfDigits a) (natOfDigits b) (natOfDigits c)
      else Cell.str s
    | _ => Cell.str s
  | v => v

/-- Per-cell write policy of app.py lines 239-260, keyed on the template
column j the value lands in: NaN clears the cell; columns 9 and 10 attempt
float with a verbatim fallback; columns 11 and 12 go through parse_date;
every other column receives the value as-is. -/
def writeVal (j : Nat) (v : Cell) : Cell :=
  if v = Cell.null then Cell.null
  else if j = 9 || j = 10 then
    match tryFloat v with
    | some n => Cell.num n
    | none => v
  else if j = 11 || j = 12 then parseDateCell v
  else v

/-- Writing one row at sheet row i (app.py lines 236-260): field k of the
row lands in column k + 2, transformed by writeVal. -/
def writeRow (sheet : Sheet) (i : Nat) (row : Row) : Sheet :=
  fun r c =>
    if r = i && 2 ≤ c && c < 2 + row.length then writeVal c (row.getD (c - 2) Cell.null)
    else sheet r c

/-- Writing loop of app.py line 233: consecutive rows starting at sheet row
i0. -/
def writeAll (sheet : Sheet) (i0 : Nat) : List Row → Sheet
  | [] => sheet
  | r :: rs => writeAll (writeRow sheet i0 r) (i0 + 1) rs

/-- Clear-then-write phase of process_and_merge_files on the loaded
template. -/
def mergeSheet (tmpl : Sheet) (maxRow : Nat) (rows : List Row) : Sheet :=
  writeAll (clearRegion tmpl (findEndRow tmpl maxRow)) dataStartRow rows

/-- process_and_merge_files after the input files are read: the guard of
lines 109-114 aborts with None (before the template is even consulted) when
some expected column label is at or beyond the column count of the raw frame
with its first column dropped; otherwise the transformed rows are merged
into the template and the result returned. -/
def processAndMerge (grid : List (List Str)) (tmpl : Sheet) (maxRow : Nat) : Option Sheet :=
  if expectedColumns.any (fun idx => decide (gridWidth grid - 1 ≤ idx)) then none
  else some (mergeSheet tmpl maxRow (rowStage grid))

/-! ## Template analyzer: calendar classification
(identify_input_vs_calendar_columns, src/template_analyzer.py lines 61-110) -/

/-- The twelve month abbreviations of template_analyzer.py lines 72-73. -/
def monthNames : List Str :=
  [("jan".data), ("feb".data), ("mar".data), ("apr".data), ("may".data), ("jun".data),
   ("jul".data), ("aug".data), ("sep".data), ("oct".data), ("nov".data), ("dec".data)]

/-- The finite year list of template_analyzer.py line 87. -/
def yearStrings : List Str :=
  [("2025".data), ("2026".data), ("2027".data), ("2028".data), ("2029".data), ("2030".data)]

/-- The exact two-word check of template_analyzer.py lines 90-94 on the
lowered, stripped header: two whitespace tokens, the first a month
abbreviation, the second an all-digit string of value at least 2025. -/
def wordCheck (hl : Str) : Bool :=
  let ws := splitWs hl
  ws.length = 2 && monthNames.contains (ws.getD 0 []) && isDigitsB (ws.getD 1 [])
    && decide (2025 ≤ natOfDigits (ws.getD 1 []))

/-- Calendar classification of a template header
(template_analyzer.py lines 80-96): some month abbreviation occurs in the
lowered stripped name, some year of the finite 2025-2030 list occurs in it,
and the two-word check passes; every other header is a DATA column. -/
def isCalendar (name : Str) : Bool :=
  let hl := trimS (lowerS name)
  monthNames.any (fun m =>
    containsSub hl m && yearStrings.any (fun y => containsSub hl y) && wordCheck hl)

/-! ## Template analyzer: raw header location
(analyze_raw_data_sample, src/template_analyzer.py lines 168-195) -/

/-- The keyword list of template_analyzer.py line 180. -/
def headerIndicators : List Str :=
  [("capture".data), ("opportunity".data), ("salesforce".data),
   ("stage".data), ("positioning".data), ("govwin".data)]

/-- Joining a list of strings with single spaces (Python " ".join). -/
def joinSp : List Str → Str
  | [] => []
  | [s] => s
  | s :: rest => s ++ ' ' :: joinSp rest

/-- row_text of template_analyzer.py line 177: the lowered non-blank cells
of the row joined with spaces. -/
def rowText (row : List Str) : Str :=
  joinSp (row.filterMap (fun c => if trimS c ≠ ([] : Str) then some (lowerS c) else none))

/-- Keyword-hit count of template_analyzer.py line 181: the number of
distinct indicator keywords occurring in the joined row text. -/
def matchCount (row : List Str) : Nat :=
  headerIndicators.countP (fun k => containsSub (rowText row) k)

/-- A row qualifies as the header row once three keywords hit
(template_analyzer.py line 183). -/
def qualifiesHeader (row : List Str) : Bool := decide (3 ≤ matchCount row)

/-- Linear scan for the first qualifying row index, starting at i with the
given number of rows left to inspect. -/
def scanFrom (raws : List (List Str)) (i fuel : Nat) : Option Nat :=
  match fuel with
  | 0 => none
  | fuel + 1 =>
    if qualifiesHeader (raws.getD i []) then some i else scanFrom raws (i + 1) fuel

/-- The header search loop of template_analyzer.py lines 175-187: rows are
scanned from index 10 to the end of the sampled rows. -/
def findHeaderRow (raws : List (List Str)) : Option Nat :=
  scanFrom raws 10 (raws.length - 10)

/-- locate, the observable outcome of analyze_raw_data_sample's header
discovery: the chosen header row index paired with the data start row
(header + 1); on scan failure, the fixed fallback row 13 (0-indexed) with
data start 14, provided the sample has such a row; none when no header can
be produced (the final falsy check of lines 189-195 also rejects an empty
fallback row). -/
def locate (raws : List (List Str)) : Option (Nat × Nat) :=
  match findHeaderRow raws with
  | some r => if raws.getD r [] ≠ ([] : List Str) then some (r, r + 1) else none
  | none =>
    if 13 < raws.length && raws.getD 13 [] ≠ ([] : List Str) then some (13, 14) else none

/-! ## Template analyzer: smart column mapping
(smart_column_mapping, src/template_analyzer.py lines 219-314) -/

/-- Keyword co-occurrence bonus of template_analyzer.py lines 258-274: an
elif chain over fixed keyword pairs on the lowered template and raw header
names. -/
def keywordBonus (t r : Str) : Nat :=
  if containsSub t ("positioning".data) && containsSub r ("positioning".data) then 20
  else if containsSub t ("govwin".data) && containsSub r ("govwin".data) then 20
  else if containsSub t ("capture".data) && containsSub r ("capture".data) then 15
  else if containsSub t ("opportunity".data) && containsSub r ("opportunity".data) then 15
  else if (containsSub t ("sf".data) || containsSub t ("salesforce".data))
      && (containsSub r ("salesforce".data) || containsSub r ("sf".data)) then 20
  else if containsSub t ("award".data) && containsSub r ("award".data) then 15
  else if containsSub t ("ceiling".data) && containsSub r ("ceiling".data) then 15
  else if containsSub t ("stage".data) && containsSub r ("stage".data) then 15
  else 0

/-- Content-pattern bonus of template_analyzer.py lines 277-298, from up to
three non-empty stripped sample values of the candidate column. -/
def contentBonus (t : Str) (vals : List Str) : Nat :=
  if vals.isEmpty then 0
  else if containsSub t ("positioning".data) then
    (if vals.any (fun v =>
        containsSub (lowerS v) ("sub".data) || containsSub (lowerS v) ("capture".data)
          || containsSub (lowerS v) ("qualification".data)) then 30 else 0)
  else if containsSub t ("govwin".data) then
    (if vals.any (fun v => isDigitsB v && decide (5 ≤ v.length)) then 30 else 0)
  else if containsSub t ("award".data) || containsSub t ("rfp".data) then
    (if vals.any (fun v => v.contains '/' && v.any Char.isDigit) then 25 else 0)
  else if containsSub t ("ceiling".data) || containsSub t ("value".data) then
    (if vals.any (fun v => isDigitsB (v.filter (fun c => !(c = ',' || c = '$')))) then 20 else 0)
  else 0

/-- The sample values inspected for one raw column index
(template_analyzer.py lines 278-279): the first three sample rows' cells at
that index, keeping non-empty ones, stripped. -/
def sampleVals (sd : List (List Str)) (i : Nat) : List Str :=
  (((sd.take 3).map (fun row => row.getD i [])).filter (fun v => v ≠ ([] : Str))).map trimS

/-- Total score of one candidate raw header for one template slot
(template_analyzer.py lines 252-298): substring-similarity bonus plus
keyword bonus plus content bonus, on the lowered stripped names. -/
def rawScore (t rawHeader : Str) (vals : List Str) : Nat :=
  let r := trimS (lowerS rawHeader)
  (if containsSub r t || containsSub t r then 10 else 0) + keywordBonus t r + contentBonus t vals

/-- Score of the candidate at index i, with blank headers skipped (scored
zero, exactly as the loop's continue leaves them unable to win). -/
def colScore (t : Str) (hs : List Str) (sd : List (List Str)) (i : Nat) : Nat :=
  let h := hs.getD i []
  if trimS h = ([] : Str) then 0 else rawScore t h (sampleVals sd i)

/-- The running best of the scoring loop (template_analyzer.py lines
300-302), unrolled from the right: the best over the first n candidates,
where a later candidate replaces the incumbent only with a strictly greater
score and a score of zero never wins (best_match_score starts at 0). -/
def bestIdx (f : Nat → Nat) : Nat → Option Nat
  | 0 => none
  | n + 1 =>
    match bestIdx f n with
    | none => if 0 < f n then some n else none
    | some k => if f k < f n then some n else some k

/-- best_match_index for one template slot: the winning raw column index,
none when every candidate scores zero. -/
def bestMatch (templateName : Str) (hs : List Str) (sd : List (List Str)) : Option Nat :=
  bestIdx (colScore (trimS (lowerS templateName)) hs sd) hs.length

/-- smart_column_mapping: slots are processed in template order; each is
paired with its winning raw column index, if any. -/
def smart_column_mapping (templateCols : List Str) (hs : List Str) (sd : List (List Str)) :
    List (Str × Option Nat) :=
  templateCols.map (fun name => (name, bestMatch name hs sd))

/-! ## Helper lemmas on the scoring loop, the header scan and row edits -/

theorem bestIdx_none (f : Nat → Nat) (n : Nat) (h : bestIdx f n = none) :
    ∀ j, j < n → f j = 0 := by
  induction n with
  | zero => intro j hj; exact absurd hj (Nat.not_lt_zero j)
  | succ n ih =>
    intro j hj
    rcases hk : bestIdx f n with _ | k
    · rw [bestIdx, hk] at h
      by_cases hf : 0 < f n
      · simp [hf] at h
      · rcases Nat.lt_succ_iff_lt_or_eq.mp hj with hj1 | hj1
        · exact ih hk j hj1
        · subst hj1
          exact Nat.eq_zero_of_not_pos hf
    · rw [bestIdx, hk] at h
      by_cases hf : f k < f n
      · simp [hf] at h
      · simp [hf] at h

theorem bestIdx_some (f : Nat → Nat) (n : Nat) (k : Nat) (h : bestIdx f n = some k) :
    k < n ∧ 0 < f k ∧ (∀ j, j < n → f j ≤ f k) ∧ (∀ j, j < k → f j < f k) := by
  induction n generalizing k with
  | zero => cases h
  | succ n ih =>
    rcases hk : bestIdx f n with _ | m
    · rw [bestIdx, hk] at h
      by_cases hf : 0 < f n
      · simp only [hf, if_pos, Option.some.injEq] at h
        subst h
        refine ⟨Nat.lt_succ_self n, hf, ?_, ?_⟩
        · intro j hj
          rcases Nat.lt_succ_iff_lt_or_eq.mp hj with hj1 | hj1
          · rw [bestIdx_none f n hk j hj1]
            exact Nat.zero_le _
          · subst hj1
            exact Nat.le_refl _
        · intro j hj
          rw [bestIdx_none f n hk j hj]
          exact hf
      · simp [hf] at h
    · rw [bestIdx, hk] at h
      rcases ih m hk with ⟨hm1, hm2, hm3, hm4⟩
      by_cases hf : f m < f n
      · simp only [hf, if_pos, Option.some.injEq] at h
        subst h
        refine ⟨Nat.lt_succ_self n, Nat.lt_of_lt_of_le hm2 (Nat.le_of_lt hf), ?_, ?_⟩
        · intro j hj
          rcases Nat.lt_succ_iff_lt_or_eq.mp hj with hj1 | hj1
          · exact Nat.le_of_lt (Nat.lt_of_le_of_lt (hm3 j hj1) hf)
          · subst hj1
            exact Nat.le_refl _
        · intro j hj
          exact Nat.lt_of_le_of_lt (hm3 j hj) hf
      · have h2 : m = k := by simpa [hf] using h
        subst h2
        refine ⟨Nat.lt_succ_of_lt hm1, hm2, ?_, hm4⟩
        intro j hj
        rcases Nat.lt_succ_iff_lt_or_eq.mp hj with hj1 | hj1
        · exact hm3 j hj1
        · subst hj1
          exact Nat.le_of_not_lt hf

theorem scanFrom_none (raws : List (List Str)) :
    ∀ fuel i, scanFrom raws i fuel = none →
      ∀ j, i ≤ j → j < i + fuel → qualifiesHeader (raws.getD j []) = false := by
  intro fuel
  induction fuel with
  | zero =>
    intro i _ j hij hj
    omega
  | succ fuel ih =>
    intro i h j hij hj
    by_cases hq : qualifiesHeader (raws.getD i []) = true
    · rw [scanFrom, if_pos hq] at h
      cases h
    · rcases Nat.eq_or_lt_of_le hij with hij1 | hij1
      · subst hij1
        exact Bool.not_eq_true _ ▸ eq_false_of_ne_true hq
      · rw [scanFrom, if_neg hq] at h
        exact ih (i + 1) h j hij1 (by omega)

theorem scanFrom_some (raws : List (List Str)) :
    ∀ fuel i r, scanFrom raws i fuel = some r →
      i ≤ r ∧ r < i + fuel ∧ qualifiesHeader (raws.getD r []) = true ∧
        ∀ j, i ≤ j → j < r → qualifiesHeader (raws.getD j []) = false := by
  intro fuel
  induction fuel with
  | zero => intro i r h; cases h
  | succ fuel ih =>
    intro i r h
    by_cases hq : qualifiesHeader (raws.getD i []) = true
    · rw [scanFrom, if_pos hq] at h
      cases h
      exact ⟨Nat.le_refl i, by omega, hq, fun j h1 h2 => by omega⟩
    · rw [scanFrom, if_neg hq] at h
      rcases ih (i + 1) r h with ⟨h1, h2, h3, h4⟩
      refine ⟨by omega, by omega, h3, ?_⟩
      intro j hj1 hj2
      rcases Nat.eq_or_lt_of_le hj1 with hj3 | hj3
      · subst hj3
        exact eq_false_of_ne_true hq
      · exact h4 j hj3 hj2

theorem getD_zero_set_one (l : List α) (v d : α) : (l.set 1 v).getD 0 d = l.getD 0 d := by
  cases l with
  | nil => rfl
  | cons a l =>
    cases l with
    | nil => rfl
    | cons b l => rfl

theorem getD_one_set_one (l : List α) (v d : α) (h : 2 ≤ l.length) :
    (l.set 1 v).getD 1 d = v := by
  cases l with
  | nil => simp at h
  | cons a l =>
    cases l with
    | nil => simp at h
    | cons b l => rfl

theorem mgrKey_set_one (r : Row) (v : Cell) : mgrKey (r.set 1 v) = mgrKey r := by
  unfold mgrKey
  rw [getD_zero_set_one]

theorem isTotalRow_set_one (r : Row) (v : Cell) : isTotalRow (r.set 1 v) = isTotalRow r := by
  unfold isTotalRow
  rw [mgrKey_set_one]

theorem foldStray_snd_sub (ts ms : List Row) (r : Row) (h : r ∈ (foldStray ts ms).2) :
    r ∈ ms := by
  cases ts with
  | nil => exact h
  | cons t rest =>
    unfold foldStray at h
    rcases hf : ms.find? isStray with _ | s
    · rw [hf] at h
      exact h
    · rw [hf] at h
      exact (List.mem_filter.mp h).1

theorem foldStray_fst_total (ts ms : List Row) (hts : ∀ t ∈ ts, isTotalRow t = true) :
    ∀ r ∈ (foldStray ts ms).1, isTotalRow r = true := by
  cases ts with
  | nil => exact hts
  | cons t rest =>
    unfold foldStray
    rcases hf : ms.find? isStray with _ | s
    · exact hts
    · intro r hr
      rcases List.mem_cons.mp hr with hr | hr
      · rw [hr, isTotalRow_set_one]
        exact hts t (List.mem_cons_self t rest)
      · exact hts r (List.mem_cons_of_mem t hr)

theorem foldStray_fst_length (ts ms : List Row) :
    (foldStray ts ms).1.length = ts.length := by
  cases ts with
  | nil => rfl
  | cons t rest =>
    unfold foldStray
    rcases hf : ms.find? isStray with _ | s <;> simp

theorem mem_totalRows (rows : List Row) (r : Row) (h : r ∈ totalRows rows) :
    isTotalRow r = true := (List.mem_filter.mp h).2

theorem mem_mainRows (rows : List Row) (r : Row) (h : r ∈ mainRows rows) :
    isTotalRow r = false := by
  have h2 := (List.mem_filter.mp h).2
  simpa using h2

theorem rowLe_total (a b : Row) : rowLe a b = true ∨ rowLe b a = true :=
  strLe_total (sortKeyR a) (sortKeyR b)

theorem rowLe_trans (a b c : Row) (h1 : rowLe a b = true) (h2 : rowLe b c = true) :
    rowLe a c = true :=
  strLe_trans (sortKeyR a) (sortKeyR b) (sortKeyR c) h1 h2

/-! ## Claim theorems -/

/-- C1: for every input row list processed by the row transformation of
process_and_merge_files, the output decomposes as: first the rows whose
normalised first (manager) field is non-empty and not the literal nan,
sorted ascending by the first field (deterministic stable sort model); then
the remaining manager-less rows; then, last, exactly the Total rows (the
rows whose first field, trimmed and lower-cased, equals total) — one Total
row in the expected case, placed last. -/
theorem c1_row_order_invariant (rows : List Row) :
    ∃ a b c, transformRows rows = a ++ b ++ c ∧
      (∀ r ∈ a, hasMgr r = true ∧ isTotalRow r = false) ∧
      a.Pairwise (fun x y => strLe (sortKeyR x) (sortKeyR y) = true) ∧
      (∀ r ∈ b, hasMgr r = false ∧ isTotalRow r = false) ∧
      (∀ r ∈ c, isTotalRow r = true) ∧
      c.length = (totalRows rows).length := by
  refine ⟨sortLe rowLe ((foldStray (totalRows rows) (mainRows rows)).2.filter hasMgr),
          (foldStray (totalRows rows) (mainRows rows)).2.filter (fun r => !hasMgr r),
          (foldStray (totalRows rows) (mainRows rows)).1, rfl, ?_, ?_, ?_, ?_, ?_⟩
  · intro r hr
    have h1 := (mem_sortLe _ _ r).mp hr
    have h2 := List.mem_filter.mp h1
    exact ⟨h2.2, mem_mainRows rows r (foldStray_snd_sub _ _ r h2.1)⟩
  · exact pairwise_sortLe rowLe rowLe_total rowLe_trans _
  · intro r hr
    have h2 := List.mem_filter.mp hr
    refine ⟨by simpa using h2.2, mem_mainRows rows r (foldStray_snd_sub _ _ r h2.1)⟩
  · exact foldStray_fst_total _ _ (fun t ht => mem_totalRows rows t ht)
  · exact foldStray_fst_length _ _

/-- The detached-count row of the C5 scenario. -/
def exC5stray : Row := [Cell.str ("".data), Cell.str ("42".data)]

/-- The Total row of the C5 scenario. -/
def exC5total : Row := [Cell.str ("Total".data), Cell.str ("".data)]

/-- The C5 input rows, in the order the spec gives them. -/
def exC5 : List Row := [exC5stray, exC5total]

/-- C5: on the concrete rows of the claim the transformed output is exactly
one Total row whose second field is 42; and in general, whenever a Total
row is present and some main row has an all-digit second field, the first
such value is folded into the first Total row's second field, and no stray
row remains among the non-Total output rows. -/
theorem c5_stray_total_folding :
    transformRows exC5 = [[Cell.str ("Total".data), Cell.str ("42".data)]] ∧
    ∀ rows t ts s, totalRows rows = t :: ts →
      (mainRows rows).find? isStray = some s → 2 ≤ t.length →
      (∃ pre, transformRows rows = pre ++ (t.set 1 (field1 s)) :: ts ∧
        ∀ r ∈ pre, isStray r = false ∧ isTotalRow r = false) ∧
      field1 (t.set 1 (field1 s)) = field1 s := by
  constructor
  · decide
  · intro rows t ts s hT hS hL
    have hfold : foldStray (totalRows rows) (mainRows rows)
        = (t.set 1 (field1 s) :: ts, (mainRows rows).filter (fun r => !isStray r)) := by
      rw [hT]
      unfold foldStray
      rw [hS]
    constructor
    · refine ⟨sortLe rowLe (((mainRows rows).filter (fun r => !isStray r)).filter hasMgr)
          ++ ((mainRows rows).filter (fun r => !isStray r)).filter (fun r => !hasMgr r),
          ?_, ?_⟩
      · show sortLe rowLe ((foldStray (totalRows rows) (mainRows rows)).2.filter hasMgr)
            ++ (foldStray (totalRows rows) (mainRows rows)).2.filter (fun r => !hasMgr r)
            ++ (foldStray (totalRows rows) (mainRows rows)).1 = _
        rw [hfold, List.append_assoc]
      · intro r hr
        have hr2 : r ∈ (mainRows rows).filter (fun x => !isStray x) := by
          rcases List.mem_append.mp hr with h1 | h1
          · exact (List.mem_filter.mp ((mem_sortLe _ _ r).mp h1)).1
          · exact (List.mem_filter.mp h1).1
        have h3 := List.mem_filter.mp hr2
        refine ⟨by simpa using h3.2, mem_mainRows rows r h3.1⟩
    · exact getD_one_set_one t (field1 s) Cell.null hL

/-- Witness for C5: the general folding statement applied to the concrete
scenario of the claim. -/
theorem c5_stray_total_folding_witness :
    (totalRows exC5 = exC5total :: [] ∧ (mainRows exC5).find? isStray = some exC5stray ∧
      2 ≤ exC5total.length) ∧
    ((∃ pre, transformRows exC5 = pre ++ (exC5total.set 1 (field1 exC5stray)) :: [] ∧
        ∀ r ∈ pre, isStray r = false ∧ isTotalRow r = false) ∧
      field1 (exC5total.set 1 (field1 exC5stray)) = field1 exC5stray) :=
  ⟨⟨by decide, by decide, by decide⟩,
   c5_stray_total_folding.2 exC5 exC5total [] exC5stray (by decide) (by decide) (by decide)⟩

/-- An all-empty raw sheet row (14 empty string cells). -/
def exC4rowEmpty : List Str := List.replicate 14 ([] : Str)

/-- A raw sheet row with a manager but an empty opportunity-name field. -/
def exC4rowBob : List Str :=
  [[], ("Bob".data), [], [], [], [], [], [], [], [], [], [], [], []]

/-- The C4 failing input grid: 14 leading sheet rows, then the all-empty row
and the empty-opportunity row. -/
def exGridC4 : List (List Str) :=
  [[], [], [], [], [], [], [], [], [], [], [], [], [], [], exC4rowEmpty, exC4rowBob]

/-- The processed form of the empty-opportunity row. -/
def exC4outBob : Row :=
  [Cell.str ("Bob".data), Cell.str [], Cell.str [], Cell.str [], Cell.str [], Cell.str [],
   Cell.null, Cell.null, Cell.str [], Cell.str [], Cell.str []]

/-- The processed form of the all-empty row. -/
def exC4outEmpty : Row :=
  [Cell.str [], Cell.str [], Cell.str [], Cell.str [], Cell.str [], Cell.str [],
   Cell.null, Cell.null, Cell.str [], Cell.str [], Cell.str []]

/-- C4 (failing input): the row stage keeps both a row every field of which
is empty and a row whose second (opportunity-name) field is empty: pandas
dropna removes only NaN, and the ingestion step turns blank sheet cells
into empty strings, which are not NaN, so neither dropna call of app.py
lines 153-154 ever fires on them. -/
theorem c4_empty_rows_survive :
    rowStage exGridC4 = [exC4outBob, exC4outEmpty] ∧
    field1 exC4outBob = Cell.str ([] : Str) ∧
    exC4outEmpty.all (fun c => decide (c = Cell.str ([] : Str)) || decide (c = Cell.null)) = true := by
  refine ⟨by decide, by decide, by decide⟩

/-- A raw data row whose Ceiling Value cell (raw position 8) holds a
well-formed currency string. -/
def exC3rowAlice : List Str :=
  [[], ("Alice".data), [], ("Deal A".data), ("SF-1".data), [], [], [],
   ("$1,250,000".data), [], [], [], [], []]

/-- A raw data row whose Ceiling Value cell holds the non-parseable
placeholder N/A. -/
def exC3rowBob : List Str :=
  [[], ("Bob".data), [], ("Deal B".data), ("SF-2".data), [], [], [],
   ("N/A".data), [], [], [], [], []]

/-- The C3 grid: 14 leading sheet rows, then the two data rows above. -/
def exGridC3 : List (List Str) :=
  [[], [], [], [], [], [], [], [], [], [], [], [], [], [], exC3rowAlice, exC3rowBob]

/-- A template whose data region is initially full of text cells and which
has no trailing Total row. -/
def exTmplC3 : Sheet := fun _ _ => Cell.str ("x".data)

/-- C3 (counterexample): the claim requires the non-parseable currency input
N/A to be written verbatim into its output cell, but the merge writes an
empty cell there: pd.to_numeric with errors=coerce (app.py line 150) has
already turned N/A into NaN before the write loop's verbatim fallback can
see it, and NaN is written as None (app.py lines 239-240).  The Ceiling
Value of the second transformed row lands in sheet cell (6, 8), and it is
null, not the string N/A. -/
theorem c3_currency_verbatim_counterexample :
    mergeSheet exTmplC3 6 (rowStage exGridC3) 6 8 = Cell.null ∧
    Cell.null ≠ Cell.str ("N/A".data) := ⟨by decide, by decide⟩

/-- C3 (amended): the merge run completes (no abort), a parseable currency
input yields its numeric value in the output cell ($1,250,000 becomes the
number 1250000 in cell (5, 8)), but a non-parseable currency input such as
N/A is nulled by the coercion step, leaving an empty output cell rather
than the original string. -/
theorem c3_currency_coercion_amended :
    (processAndMerge exGridC3 exTmplC3 6).isSome = true ∧
    mergeSheet exTmplC3 6 (rowStage exGridC3) 5 8 = Cell.num 1250000 ∧
    mergeSheet exTmplC3 6 (rowStage exGridC3) 6 8 = Cell.null := by
  refine ⟨by decide, by decide, by decide⟩

theorem coerceAux_length (l : List Str) : ∀ i, (coerceAux i l).length = l.length := by
  induction l with
  | nil => intro i; rfl
  | cons s rest ih =>
    intro i
    unfold coerceAux
    simp [ih]

theorem projectRow_length (r : List Str) : (projectRow r).length = 11 := by
  unfold projectRow
  rw [List.length_map]
  rfl

theorem mem_filteredRows (rows : List Row) (r : Row) (h : r ∈ filteredRows rows) :
    r ∈ rows := by
  unfold filteredRows at h
  exact (List.mem_filter.mp
    (List.mem_filter.mp (List.mem_filter.mp (List.mem_filter.mp h).1).1).1).1

theorem foldStray_fst_length_of (ts ms : List Row) (n : Nat)
    (hts : ∀ t ∈ ts, t.length = n) : ∀ r ∈ (foldStray ts ms).1, r.length = n := by
  cases ts with
  | nil => exact hts
  | cons t rest =>
    unfold foldStray
    rcases hf : ms.find? isStray with _ | s
    · exact hts
    · intro r hr
      rcases List.mem_cons.mp hr with hr | hr
      · rw [hr, List.length_set]
        exact hts t (List.mem_cons_self t rest)
      · exact hts r (List.mem_cons_of_mem t hr)

theorem transformRows_length_of (rows : List Row) (n : Nat)
    (h : ∀ r ∈ rows, r.length = n) : ∀ r ∈ transformRows rows, r.length = n := by
  intro r hr
  have hmain : ∀ x, x ∈ mainRows rows → x.length = n := fun x hx =>
    h x (mem_filteredRows rows x (List.mem_filter.mp hx).1)
  have htot : ∀ x, x ∈ totalRows rows → x.length = n := fun x hx =>
    h x (mem_filteredRows rows x (List.mem_filter.mp hx).1)
  rcases List.mem_append.mp hr with h1 | h1
  · rcases List.mem_append.mp h1 with h2 | h2
    · have h3 := (mem_sortLe _ _ r).mp h2
      exact hmain r (foldStray_snd_sub _ _ r (List.mem_filter.mp h3).1)
    · exact hmain r (foldStray_snd_sub _ _ r (List.mem_filter.mp h2).1)
  · exact foldStray_fst_length_of _ _ n htot r h1

theorem rowStage_length (grid : List (List Str)) :
    ∀ r ∈ rowStage grid, r.length = 11 := by
  unfold rowStage
  apply transformRows_length_of
  intro r hr
  rcases List.mem_map.mp hr with ⟨r1, hr1, hr2⟩
  rcases List.mem_map.mp hr1 with ⟨r0, _, hr3⟩
  rw [← hr2]
  unfold coerceRow
  rw [coerceAux_length]
  rw [← hr3]
  exact projectRow_length r0

theorem writeRow_outside (sheet : Sheet) (i0 : Nat) (row : Row) (hrow : row.length ≤ 11)
    (i j : Nat) (hj : j < 2 ∨ 13 ≤ j) : writeRow sheet i0 row i j = sheet i j := by
  unfold writeRow
  have hc : (decide (i = i0) && decide (2 ≤ j) && decide (j < 2 + row.length)) = false := by
    rcases hj with hj | hj
    · have h2 : decide (2 ≤ j) = false := by
        simp
        omega
      simp [h2]
    · have h2 : decide (j < 2 + row.length) = false := by
        simp
        omega
      simp [h2]
  rw [hc]
  rfl

theorem writeAll_outside (rows : List Row) (hrows : ∀ r ∈ rows, r.length ≤ 11) :
    ∀ (sheet : Sheet) (i0 i j : Nat), j < 2 ∨ 13 ≤ j →
      writeAll sheet i0 rows i j = sheet i j := by
  induction rows with
  | nil => intro sheet i0 i j _; rfl
  | cons r rs ih =>
    intro sheet i0 i j hj
    have h1 := ih (fun x hx => hrows x (List.mem_cons_of_mem r hx))
      (writeRow sheet i0 r) (i0 + 1) i j hj
    unfold writeAll
    rw [h1]
    exact writeRow_outside sheet i0 r (hrows r (List.mem_cons_self r rs)) i j hj

/-- C9: after any merge, writes touch only the data-column band (sheet
columns 2-12, where the eleven mapped DATA columns live): at every column
outside that band the merged sheet agrees with the cleared template, and in
particular every cell in columns 13-46 (the CALENDAR columns) of the data
region between the start row and the clear boundary is empty. -/
theorem c9_calendar_cleared_never_written (grid : List (List Str)) (tmpl : Sheet) (maxRow : Nat) :
    (∀ i j, dataStartRow ≤ i → i ≤ findEndRow tmpl maxRow → 13 ≤ j → j ≤ 46 →
      mergeSheet tmpl maxRow (rowStage grid) i j = Cell.null) ∧
    (∀ i j, j < 2 ∨ 13 ≤ j →
      mergeSheet tmpl maxRow (rowStage grid) i j
        = clearRegion tmpl (findEndRow tmpl maxRow) i j) := by
  have hlen : ∀ r ∈ rowStage grid, r.length ≤ 11 := fun r hr =>
    Nat.le_of_eq (rowStage_length grid r hr)
  constructor
  · intro i j h1 h2 h3 h4
    have h5 : mergeSheet tmpl maxRow (rowStage grid) i j
        = clearRegion tmpl (findEndRow tmpl maxRow) i j :=
      writeAll_outside (rowStage grid) hlen _ dataStartRow i j (Or.inr h3)
    rw [h5]
    unfold clearRegion
    have hc : (decide (dataStartRow ≤ i) && decide (i ≤ findEndRow tmpl maxRow)
        && decide (2 ≤ j) && decide (j ≤ 46)) = true := by
      simp
      omega
    rw [hc]
    rfl
  · intro i j hj
    exact writeAll_outside (rowStage grid) hlen _ dataStartRow i j hj

/-- Witness for C9: a concrete merge (empty raw grid, constant text
template, last row 5) leaves the calendar cell (5, 13) empty and leaves an
out-of-band cell equal to the cleared template. -/
theorem c9_calendar_cleared_never_written_witness :
    mergeSheet (fun _ _ => Cell.str ("x".data)) 5 (rowStage []) 5 13 = Cell.null ∧
    mergeSheet (fun _ _ => Cell.str ("x".data)) 5 (rowStage []) 3 1
      = clearRegion (fun _ _ => Cell.str ("x".data))
          (findEndRow (fun _ _ => Cell.str ("x".data)) 5) 3 1 :=
  ⟨(c9_calendar_cleared_never_written [] (fun _ _ => Cell.str ("x".data)) 5).1 5 13
      (by decide) (by decide) (by decide) (by decide),
   (c9_calendar_cleared_never_written [] (fun _ _ => Cell.str ("x".data)) 5).2 3 1
      (Or.inl (by decide))⟩

/-- C10: whenever some fixed expected raw-column index is at or beyond the
column count of the raw frame (its blank first column dropped), the guard
of app.py lines 109-114 makes process_and_merge_files return None for every
template whatsoever — the template is never consulted and no output sheet
is produced. -/
theorem c10_out_of_range_aborts (grid : List (List Str))
    (h : ∃ idx ∈ expectedColumns, gridWidth grid - 1 ≤ idx) :
    ∀ (tmpl : Sheet) (maxRow : Nat), processAndMerge grid tmpl maxRow = none := by
  have hc : expectedColumns.any (fun idx => decide (gridWidth grid - 1 ≤ idx)) = true := by
    rw [List.any_eq_true]
    rcases h with ⟨idx, h1, h2⟩
    exact ⟨idx, h1, decide_eq_true h2⟩
  intro tmpl maxRow
  unfold processAndMerge
  rw [if_pos hc]

/-- Witness for C10: a raw grid with too few columns aborts the merge for a
concrete template. -/
theorem c10_out_of_range_aborts_witness :
    processAndMerge [[("only one column".data)]] (fun _ _ => Cell.null) 9 = none :=
  c10_out_of_range_aborts [[("only one column".data)]]
    ⟨1, by decide, by decide⟩ (fun _ _ => Cell.null) 9

/-- C2 (counterexample): two distinct DATA slots can claim the same
RawColumn index.  With template slots Stage and Stage Info and the single
raw header Stage, smart_column_mapping assigns raw column 0 to both slots:
the scoring loop never removes a claimed column from the candidate pool. -/
theorem c2_double_claim_counterexample :
    smart_column_mapping [("Stage".data), ("Stage Info".data)] [("Stage".data)] []
      = [(("Stage".data), some 0), (("Stage Info".data), some 0)] := by decide

/-- C2 (amended): slots are processed in stable deterministic template
order (the output pairs list the slots exactly in input order), and each
slot independently receives the earliest raw column of strictly maximal
positive score — but no claimed-column removal takes place, so distinct
slots may share a RawColumn index (see the counterexample). -/
theorem c2_no_double_claim_amended (templateCols hs : List Str) (sd : List (List Str)) :
    ((smart_column_mapping templateCols hs sd).map Prod.fst = templateCols) ∧
    ∀ name k, (name, some k) ∈ smart_column_mapping templateCols hs sd →
      k < hs.length ∧ 0 < colScore (trimS (lowerS name)) hs sd k ∧
      (∀ j, j < hs.length →
        colScore (trimS (lowerS name)) hs sd j ≤ colScore (trimS (lowerS name)) hs sd k) ∧
      (∀ j, j < k →
        colScore (trimS (lowerS name)) hs sd j < colScore (trimS (lowerS name)) hs sd k) := by
  constructor
  · unfold smart_column_mapping
    rw [List.map_map]
    exact List.map_id templateCols
  · intro name k hk
    rcases List.mem_map.mp hk with ⟨name0, _, heq⟩
    have h1 : name0 = name := congrArg Prod.fst heq
    have h2 : bestMatch name0 hs sd = some k := by
      have h3 := congrArg Prod.snd heq
      simpa using h3
    subst h1
    unfold bestMatch at h2
    exact bestIdx_some _ hs.length k h2

/-- Witness for C2 (amended): the duplicate-claim scenario instantiated;
the second slot's winning column 0 indeed has positive score. -/
theorem c2_no_double_claim_amended_witness :
    ((("Stage Info".data), some 0)
        ∈ smart_column_mapping [("Stage".data), ("Stage Info".data)] [("Stage".data)] []) ∧
    0 < colScore (trimS (lowerS ("Stage Info".data))) [("Stage".data)] [] 0 :=
  ⟨by decide,
   ((c2_no_double_claim_amended [("Stage".data), ("Stage Info".data)] [("Stage".data)] []).2
      ("Stage Info".data) 0 (by decide)).2.1⟩

/-- C8 (counterexample): the scoring of smart_column_mapping contains no
exclusion terms.  For the slot Stage, the raw header Stage Probability (a
filter-artifact header containing probability) scores exactly the same 25
points as the clean header Stage, and since ties keep the earliest index,
the probability column at index 0 is selected over the equally scoring
clean column at index 1 — contradicting the claimed disqualification. -/
theorem c8_exclusion_terms_counterexample :
    bestMatch ("Stage".data) [("Stage Probability".data), ("Stage".data)] [] = some 0 ∧
    containsSub (trimS (lowerS ("Stage Probability".data))) ("probability".data) = true ∧
    containsSub (trimS (lowerS ("Stage".data))) ("probability".data) = false ∧
    colScore (trimS (lowerS ("Stage".data))) [("Stage Probability".data), ("Stage".data)] [] 0
      = colScore (trimS (lowerS ("Stage".data)))
          [("Stage Probability".data), ("Stage".data)] [] 1 := by
  refine ⟨by decide, by decide, by decide, by decide⟩

/-- C8 (amended): per-slot scoring awards only the positive bonuses of
template_analyzer.py lines 252-298 — a header containing probability or
equals receives no penalty (the two Stage headers score identically) — and
the selected column is simply the earliest one of maximal score, whatever
text its header contains. -/
theorem c8_no_exclusion_penalty_amended :
    (∀ (t : Str) (hs : List Str) (sd : List (List Str)) (k : Nat),
      bestMatch t hs sd = some k →
      ∀ j, j < hs.length →
        colScore (trimS (lowerS t)) hs sd j ≤ colScore (trimS (lowerS t)) hs sd k) ∧
    rawScore ("stage".data) ("Stage Probability".data) []
      = rawScore ("stage".data) ("Stage".data) [] := by
  constructor
  · intro t hs sd k hk j hj
    unfold bestMatch at hk
    exact (bestIdx_some _ hs.length k hk).2.2.1 j hj
  · decide

/-- Witness for C8 (amended): the tie-breaking fact applied to the concrete
Stage scenario. -/
theorem c8_no_exclusion_penalty_amended_witness :
    bestMatch ("Stage".data) [("Stage Probability".data), ("Stage".data)] [] = some 0 ∧
    colScore (trimS (lowerS ("Stage".data))) [("Stage Probability".data), ("Stage".data)] [] 1
      ≤ colScore (trimS (lowerS ("Stage".data)))
          [("Stage Probability".data), ("Stage".data)] [] 0 :=
  ⟨by decide,
   c8_no_exclusion_penalty_amended.1 ("Stage".data)
     [("Stage Probability".data), ("Stage".data)] [] 0 (by decide) 1 (by decide)⟩

/-- The counting rule asserted by claim C6 and the spec for the header
locator (spec side, for comparison with the code): the number of non-empty
cells of the row that contain, case-insensitively, at least one domain
keyword, where the keyword family includes the bare sf variant. -/
def specCellKeywordCount (row : List Str) : Nat :=
  (row.filter (fun c => trimS c ≠ ([] : Str))).countP (fun c =>
    (("sf".data) :: headerIndicators).any (fun k => containsSub (lowerS c) k))

/-- A sampled raw sheet on which the spec's counting rule and the code
disagree: row 10 has three non-empty cells each containing the keyword
capture, rows 11-14 carry no keywords, and row 13 is non-blank. -/
def exRawsA : List (List Str) :=
  [[], [], [], [], [], [], [], [], [], [],
   [("capture a".data), ("capture b".data), ("capture c".data)],
   [], [], [("x".data)], []]

/-- C6 (counterexample): by the claimed per-cell counting rule, row 10 is
the earliest candidate reaching the threshold of 3, so the claim says it is
selected as the header row; but the code counts distinct keywords in the
joined row text (count 1 here), rejects every row, and falls back to the
fixed offset, locating the header at row 13 instead. -/
theorem c6_header_count_counterexample :
    3 ≤ specCellKeywordCount (exRawsA.getD 10 []) ∧
    matchCount (exRawsA.getD 10 []) = 1 ∧
    locate exRawsA = some (13, 14) ∧
    locate exRawsA ≠ some (10, 11) := by
  refine ⟨by decide, by decide, by decide, by decide⟩

/-- C6 (amended): the locator scans rows from index 10, counting how many
distinct keywords of the fixed set (capture, opportunity, salesforce,
stage, positioning, govwin — the bare sf variant is not among them) occur
in the row's joined lower-cased text; the selected header row is the
earliest scanned row with at least 3 distinct keyword hits, the data start
row is the row after it, and when no row qualifies the fixed fallback row
13 (0-indexed) is used, provided the sample reaches a non-blank row 13. -/
theorem c6_header_locator_amended (raws : List (List Str)) :
    ∀ r d, locate raws = some (r, d) → d = r + 1 ∧
      ((10 ≤ r ∧ r < raws.length ∧ qualifiesHeader (raws.getD r []) = true ∧
        ∀ j, 10 ≤ j → j < r → qualifiesHeader (raws.getD j []) = false)
       ∨ (r = 13 ∧ 13 < raws.length ∧
          ∀ j, 10 ≤ j → j < raws.length → qualifiesHeader (raws.getD j []) = false)) := by
  intro r d h
  rcases hs : findHeaderRow raws with _ | r0
  · have he : locate raws
        = (if (decide (13 < raws.length) && decide (raws.getD 13 [] ≠ ([] : List Str)))
            = true then some (13, 14) else none) := by
      unfold locate
      rw [hs]
    rw [he] at h
    by_cases hcond : (decide (13 < raws.length) && decide (raws.getD 13 [] ≠ ([] : List Str)))
        = true
    · rw [if_pos hcond] at h
      injection h with h
      injection h with h1 h2
      subst h1
      subst h2
      have h13 : 13 < raws.length := by
        have h3 := (Bool.and_eq_true _ _).mp hcond
        exact of_decide_eq_true h3.1
      refine ⟨rfl, Or.inr ⟨rfl, h13, ?_⟩⟩
      intro j hj1 hj2
      unfold findHeaderRow at hs
      exact scanFrom_none raws (raws.length - 10) 10 hs j hj1 (by omega)
    · rw [if_neg hcond] at h
      cases h
  · have he : locate raws
        = (if raws.getD r0 [] ≠ ([] : List Str) then some (r0, r0 + 1) else none) := by
      unfold locate
      rw [hs]
    rw [he] at h
    by_cases hcond : raws.getD r0 [] = ([] : List Str)
    · rw [if_neg (not_not_intro hcond)] at h
      cases h
    · rw [if_pos hcond] at h
      injection h with h
      injection h with h1 h2
      subst h1
      subst h2
      unfold findHeaderRow at hs
      rcases scanFrom_some raws (raws.length - 10) 10 r0 hs with ⟨h1, h2, h3, h4⟩
      refine ⟨rfl, Or.inl ⟨h1, by omega, h3, ?_⟩⟩
      intro j hj1 hj2
      exact h4 j hj1 hj2

/-- A sampled raw sheet whose row 10 is a genuine header row (four distinct
keywords). -/
def exRawsB : List (List Str) :=
  [[], [], [], [], [], [], [], [], [], [],
   [("Capture Manager".data), ("Opportunity Name".data), ("Salesforce ID".data),
    ("Stage".data)]]

/-- Witness for C6 (amended): the locator finds the genuine header row of
the second sample at index 10 with data start 11. -/
theorem c6_header_locator_amended_witness :
    locate exRawsB = some (10, 11) ∧ 11 = 10 + 1 :=
  ⟨by decide, (c6_header_locator_amended exRawsB 10 11 (by decide)).1⟩

/-- The classification rule asserted by claim C7 and the spec (spec side,
for comparison with the code): cleaned lower-cased name of exactly two
tokens, the first a month abbreviation, the second a 4-digit year at or
after the 2025 baseline. -/
def specIsCalendar (name : Str) : Bool :=
  let ws := splitWs (trimS (lowerS name))
  ws.length = 2 && monthNames.contains (ws.getD 0 []) && isDigitsB (ws.getD 1 [])
    && (ws.getD 1 []).length = 4 && decide (2025 ≤ natOfDigits (ws.getD 1 []))

/-- C7 (counterexample): the header Jan 2031 is a month abbreviation
followed by a 4-digit year at or after the baseline, so the claim
classifies it CALENDAR; the code classifies it DATA, because its year loop
additionally demands that one of the literal strings 2025-2030 occur in the
name.  (Conversely, jan 20252 — not a 4-digit year — is classified
CALENDAR by the code.) -/
theorem c7_calendar_counterexample :
    specIsCalendar ("Jan 2031".data) = true ∧ isCalendar ("Jan 2031".data) = false ∧
    specIsCalendar ("jan 20252".data) = false ∧ isCalendar ("jan 20252".data) = true := by
  refine ⟨by decide, by decide, by decide, by decide⟩

theorem getD_zero_mem_of_length_two (ws : List Str) (h : ws.length = 2) :
    ws.getD 0 [] ∈ ws := by
  rcases List.length_eq_two.mp h with ⟨a, b, hab⟩
  subst hab
  exact List.mem_cons_self a [b]

/-- C7 (amended): a header is classified CALENDAR iff its cleaned
lower-cased name passes the exact two-token check (month abbreviation then
an all-digit token of value at least 2025) and additionally contains one of
the literal year strings 2025-2030 as a substring; every other header is a
DATA column.  In particular four-digit years beyond 2030 are DATA. -/
theorem c7_calendar_classification_amended (name : Str) :
    isCalendar name = true ↔
      (wordCheck (trimS (lowerS name)) = true ∧
       yearStrings.any (fun y => containsSub (trimS (lowerS name)) y) = true) := by
  constructor
  · intro h
    unfold isCalendar at h
    rcases List.any_eq_true.mp h with ⟨m, _, hconj⟩
    have h1 := (Bool.and_eq_true _ _).mp hconj
    have h2 := (Bool.and_eq_true _ _).mp h1.1
    exact ⟨h1.2, h2.2⟩
  · intro h
    rcases h with ⟨hw, hy⟩
    unfold isCalendar
    rw [List.any_eq_true]
    have hw2 := hw
    unfold wordCheck at hw2
    have h1 := (Bool.and_eq_true _ _).mp hw2
    have h2 := (Bool.and_eq_true _ _).mp h1.1
    have h3 := (Bool.and_eq_true _ _).mp h2.1
    have hlen : (splitWs (trimS (lowerS name))).length = 2 := by
      have h4 := h3.1
      simpa using h4
    have hmem0 : (splitWs (trimS (lowerS name))).getD 0 [] ∈ splitWs (trimS (lowerS name)) :=
      getD_zero_mem_of_length_two _ hlen
    have hmonth : (splitWs (trimS (lowerS name))).getD 0 [] ∈ monthNames :=
      List.mem_of_elem_eq_true h3.2
    refine ⟨(splitWs (trimS (lowerS name))).getD 0 [], hmonth, ?_⟩
    rw [Bool.and_eq_true, Bool.and_eq_true]
    exact ⟨⟨splitWs_token_containsSub hmem0, hy⟩, hw⟩

/-- Witness for C7 (amended): the genuine calendar header Jun 2025 passes
both sides of the amended equivalence. -/
theorem c7_calendar_classification_amended_witness :
    isCalendar ("Jun 2025".data) = true :=
  (c7_calendar_classification_amended ("Jun 2025".data)).mpr ⟨by decide, by decide⟩
